import Mathlib

/-!
# Linter registry and linters-configuration validation of `kal`

A shallow embedding of `pkg/analysis/registry.go` (the registry of analyzer
initializers and the enable/disable resolution of `InitializeLinters`) and of
the linters-configuration validator exercised by
`pkg/validation/linters_config_test.go`, followed by the properties proved
about them.

Conventions of the embedding:
* a Go slice is a `List`, a Go `string` is a `String`;
* the `for ... range` loops over `r.initializers` are left folds whose
  accumulator is the variable the loop updates;
* `*analysis.Analyzer` is an arbitrary type `Analyzer`: the registry never
  looks inside an analyzer, it only collects what `Init` returns;
* `Name`, `Default` and `Init` of an initializer are pure.
-/

set_option autoImplicit false
set_option linter.dupNamespace false

namespace Kal

/-! ## `k8s.io/apimachinery/pkg/util/sets` -/

namespace sets

/-- The type `sets.Set[string]`: a Go map whose keys are the members. The keys
are kept in the order of their first insertion; `Has` and `Len`, the only
observations the registry makes, do not depend on that order. -/
structure Set where
  keys : List String

/-- The method `Insert` for one item: writing a key that is already present
leaves the map as it is. -/
def Set.Insert (s : Set) (item : String) : Set :=
  if item ∈ s.keys then s else ⟨s.keys ++ [item]⟩

/-- The constructor `sets.New(items...)`: the empty set with every item inserted. -/
def New (items : List String) : Set :=
  items.foldl Set.Insert ⟨[]⟩

/-- The method `Has`: key lookup. -/
def Set.Has (s : Set) (item : String) : Bool :=
  decide (item ∈ s.keys)

/-- The method `Len`: the number of keys. -/
def Set.Len (s : Set) : Nat :=
  s.keys.length

end sets

/-! ## `pkg/config` -/

namespace config

/-- Modelled from the spec: the constant `config.Wildcard` is declared in
`pkg/config`, which is not among the sources; the spec's wildcard sentinel is
the name `*`. -/
def Wildcard : String := "*"

/-- Modelled from the spec: the struct `config.Linters` (declared in
`pkg/config`), the global enable and disable lists. -/
structure Linters where
  Enable : List String
  Disable : List String

/-- Modelled from the spec: the struct `config.JSONTagsConfig`, with the one
field the validator test sets. -/
structure JSONTagsConfig where
  JSONTagRegex : String

/-- Modelled from the spec: the struct `config.OptionalOrRequiredConfig`, with
the two fields the validator test sets. -/
structure OptionalOrRequiredConfig where
  PreferredOptionalMarker : String
  PreferredRequiredMarker : String

/-- Modelled from the spec: the struct `config.LintersConfig`, one section per
rule family. -/
structure LintersConfig where
  JSONTags : JSONTagsConfig
  OptionalOrRequired : OptionalOrRequiredConfig

/-- The zero value `config.LintersConfig{}`. -/
def LintersConfig.zero : LintersConfig :=
  ⟨⟨""⟩, ⟨"", ""⟩⟩

end config

/-! ## `pkg/analysis/registry.go` -/

/-- The interface `AnalyzerInitializer`: its three methods, as pure functions. -/
structure AnalyzerInitializer (Analyzer : Type) where
  Name : String
  Init : config.LintersConfig → Analyzer
  Default : Bool

/-- The struct `registry`. -/
structure registry (Analyzer : Type) where
  initializers : List (AnalyzerInitializer Analyzer)

/-- The method `(*registry).DefaultLinters`. -/
def registry.DefaultLinters {Analyzer : Type} (r : registry Analyzer) : sets.Set :=
  r.initializers.foldl
    (fun defaultLinters initializer =>
      if initializer.Default then defaultLinters.Insert initializer.Name else defaultLinters)
    (sets.New [])

/-- The method `(*registry).AllLinters`. -/
def registry.AllLinters {Analyzer : Type} (r : registry Analyzer) : sets.Set :=
  r.initializers.foldl
    (fun linters initializer => linters.Insert initializer.Name)
    (sets.New [])

/-- The method `(*registry).InitializeLinters`. -/
def registry.InitializeLinters {Analyzer : Type} (r : registry Analyzer)
    (cfg : config.Linters) (lintersCfg : config.LintersConfig) : List Analyzer :=
  let enabled := sets.New cfg.Enable
  let disabled := sets.New cfg.Disable
  let allEnabled := enabled.Len == 1 && enabled.Has config.Wildcard
  let allDisabled := disabled.Len == 1 && disabled.Has config.Wildcard
  r.initializers.foldl
    (fun analyzers initializer =>
      if !disabled.Has initializer.Name &&
          (allEnabled || enabled.Has initializer.Name || !allDisabled && initializer.Default)
      then analyzers ++ [initializer.Init lintersCfg]
      else analyzers)
    []

/-- The resolution as the specification words it: with `E` and `D` the sets of
the `Enable` and `Disable` entries, `allEnabled` iff `E` is the wildcard
singleton and `allDisabled` iff `D` is, keep in registration order each
initializer whose name is not in `D` and that is enabled by the wildcard, by
name, or by its default when not all are disabled; apply `Init` to each. -/
def referenceResolution {Analyzer : Type} (initializers : List (AnalyzerInitializer Analyzer))
    (Enable Disable : List String) (lintersCfg : config.LintersConfig) : List Analyzer :=
  let E : Finset String := Enable.toFinset
  let D : Finset String := Disable.toFinset
  let allEnabled : Prop := E = {"*"}
  let allDisabled : Prop := D = {"*"}
  (initializers.filter
    (fun i => decide (i.Name ∉ D ∧ (allEnabled ∨ i.Name ∈ E ∨ (¬ allDisabled ∧ i.Default = true))))).map
    (fun i => i.Init lintersCfg)

/-! ## `k8s.io/apimachinery/pkg/util/validation/field` -/

namespace field

/-- The type `field.Path`, as its segments from the root. -/
structure Path where
  segments : List String
deriving DecidableEq

/-- The constructor `field.NewPath(name)`. -/
def NewPath (name : String) : Path :=
  ⟨[name]⟩

/-- The method `Child`. -/
def Path.Child (p : Path) (name : String) : Path :=
  ⟨p.segments ++ [name]⟩

/-- The method `String` of a path: the segments joined with dots. -/
def Path.String (p : Path) : String :=
  ".".intercalate p.segments

/-- The type `field.Error` of an invalid value: the path of the field, the
value found and the message. -/
structure Error where
  Field : Path
  BadValue : String
  Detail : String
deriving DecidableEq

/-- The constructor `field.Invalid`. -/
def Invalid (p : Path) (value : String) (detail : String) : Error :=
  ⟨p, value, detail⟩

/-- Modelled from the spec: the rendering of one error,
`<fieldPath>: Invalid value: "<value>": <message>`. -/
def Error.Error (e : Error) : String :=
  e.Field.String ++ ": Invalid value: \"" ++ e.BadValue ++ "\": " ++ e.Detail

end field

/-! ## `pkg/validation` -/

namespace optionalorrequired

/-- Modelled from the spec: the marker constants of `pkg/analysis/optionalorrequired`,
with the values the validator test uses. -/
def OptionalMarker : String := "optional"

/-- Modelled from the spec: see `OptionalMarker`. -/
def KubebuilderOptionalMarker : String := "kubebuilder:validation:Optional"

/-- Modelled from the spec: see `OptionalMarker`. -/
def RequiredMarker : String := "required"

/-- Modelled from the spec: see `OptionalMarker`. -/
def KubebuilderRequiredMarker : String := "kubebuilder:validation:Required"

end optionalorrequired

namespace validation

/-- Modelled from the spec: the message of an enum mismatch, listing the allowed
literals in fixed order, quoted, joined with commas and a trailing `or`. The
function is in `pkg/validation/linters_config.go`, which is not among the
sources; the wording is the one the test expects. -/
def enumDetail (allowed : List String) : String :=
  "invalid value, must be one of " ++
    ", ".intercalate (allowed.map (fun a => "\"" ++ a ++ "\"")) ++ " or omitted"

/-- Modelled from the spec: validation of an enum-valued field, valid if empty
or equal to one of the allow-list, otherwise one error for the field. -/
def validateEnum (value : String) (allowed : List String) (fldPath : field.Path) :
    List field.Error :=
  if value = "" ∨ value ∈ allowed then []
  else [field.Invalid fldPath value (enumDetail allowed)]

/-- Modelled from the spec: `validateJSONTagsConfig` of
`pkg/validation/linters_config.go` (not among the sources). A pattern-valued
field is valid if empty or if it compiles; on failure one error embeds the
compiler's diagnostic. The regular-expression compiler is the parameter
`regexpCompile`, which returns the diagnostic of a pattern that does not
compile. -/
def validateJSONTagsConfig (regexpCompile : String → Option String)
    (jtc : config.JSONTagsConfig) (fldPath : field.Path) : List field.Error :=
  if jtc.JSONTagRegex = "" then []
  else
    match regexpCompile jtc.JSONTagRegex with
    | none => []
    | some err =>
      [field.Invalid (fldPath.Child "jsonTagRegex") jtc.JSONTagRegex ("invalid regex: " ++ err)]

/-- Modelled from the spec: `validateOptionalOrRequiredConfig` of
`pkg/validation/linters_config.go` (not among the sources): the two preferred
markers are enum-valued, each checked whatever the other is. -/
def validateOptionalOrRequiredConfig (oorc : config.OptionalOrRequiredConfig)
    (fldPath : field.Path) : List field.Error :=
  validateEnum oorc.PreferredOptionalMarker
      [optionalorrequired.OptionalMarker, optionalorrequired.KubebuilderOptionalMarker]
      (fldPath.Child "preferredOptionalMarker") ++
    validateEnum oorc.PreferredRequiredMarker
      [optionalorrequired.RequiredMarker, optionalorrequired.KubebuilderRequiredMarker]
      (fldPath.Child "preferredRequiredMarker")

/-- Modelled from the spec: `ValidateLintersConfig` of
`pkg/validation/linters_config.go` (not among the sources; its test is):
the errors of every family, collected in order, with path
`basePath + family + field`. -/
def ValidateLintersConfig (regexpCompile : String → Option String)
    (lc : config.LintersConfig) (fldPath : field.Path) : List field.Error :=
  validateJSONTagsConfig regexpCompile lc.JSONTags (fldPath.Child "jsonTags") ++
    validateOptionalOrRequiredConfig lc.OptionalOrRequired (fldPath.Child "optionalOrRequired")

end validation

/-! ## The layout of a Go map -/

/-- The layout of a Go map: given the keys already stored and a new key, the
place where the runtime stores the new key. It stands for the hash seed drawn
when the map is made and for the randomised start of `range`: it differs from
one map to the next and from one call to the next, and it fixes the order in
which the keys are stored and ranged over. -/
abbrev sets.Layout : Type :=
  List String → String → Nat

/-- The method `Insert` for one item on a map with the given layout: a key
already present leaves the map as it is, a new key is stored at the place the
layout gives. -/
def sets.Set.InsertWith (layout : sets.Layout) (s : sets.Set) (item : String) : sets.Set :=
  if item ∈ s.keys then s
  else ⟨s.keys.take (layout s.keys item) ++ item :: s.keys.drop (layout s.keys item)⟩

/-- The constructor `sets.New(items...)` on a map with the given layout. -/
def sets.NewWith (layout : sets.Layout) (items : List String) : sets.Set :=
  items.foldl (sets.Set.InsertWith layout) ⟨[]⟩

/-- The method `(*registry).InitializeLinters` of one call: the code of
`registry.InitializeLinters`, where the two maps that the call makes have the
layouts `layoutE` and `layoutD` of that call. -/
def registry.InitializeLintersWith {Analyzer : Type} (layoutE layoutD : sets.Layout)
    (r : registry Analyzer) (cfg : config.Linters) (lintersCfg : config.LintersConfig) :
    List Analyzer :=
  let enabled := sets.NewWith layoutE cfg.Enable
  let disabled := sets.NewWith layoutD cfg.Disable
  let allEnabled := enabled.Len == 1 && enabled.Has config.Wildcard
  let allDisabled := disabled.Len == 1 && disabled.Has config.Wildcard
  r.initializers.foldl
    (fun analyzers initializer =>
      if !disabled.Has initializer.Name &&
          (allEnabled || enabled.Has initializer.Name || !allDisabled && initializer.Default)
      then analyzers ++ [initializer.Init lintersCfg]
      else analyzers)
    []

/-- The layout that stores every new key before the keys already stored. -/
def sets.layoutFront : sets.Layout :=
  fun _ _ => 0

/-- The layout that stores every new key after the keys already stored. -/
def sets.layoutBack : sets.Layout :=
  fun keys _ => keys.length

/-- The layout that stores the keys in the order of the list `ks`: a new key is
stored after the stored keys that come before it in `ks`. -/
def sets.layoutOf (ks : List String) : sets.Layout :=
  fun keys item => (keys.filter (fun k => decide (k ∈ ks.takeWhile (fun c => c != item)))).length

/-! ## Example registries -/

/-- An initializer whose analyzer is its own name. -/
def rule (name : String) (dflt : Bool) : AnalyzerInitializer String :=
  ⟨name, fun _ => name, dflt⟩

/-- Three rules `A` (default on), `B` (default off), `C` (default on). -/
def exampleRegistry : registry String :=
  ⟨[rule "A" true, rule "B" false, rule "C" true]⟩

/-! ## Example compiler -/

/-- An example of a regular-expression compiler, for the concrete cases: it
rejects an expression with more opening than closing parentheses, with the
diagnostic of Go for a missing closing parenthesis, and accepts every other
expression. -/
def exampleCompile (expr : String) : Option String :=
  if (expr.toList.filter (fun c => c == ')')).length <
      (expr.toList.filter (fun c => c == '(')).length
  then some ("error parsing regexp: missing closing ): `" ++ expr ++ "`")
  else none

/-! ## Auxiliary definitions -/

/-- The test of the loop body of `InitializeLinters`, on the name and default flag
of an initializer, with the two sets read through the entries of the lists. -/
def selects (cfg : config.Linters) (name : String) (dflt : Bool) : Bool :=
  decide (name ∉ cfg.Disable) &&
    (decide (cfg.Enable.toFinset = {config.Wildcard}) || decide (name ∈ cfg.Enable) ||
      !decide (cfg.Disable.toFinset = {config.Wildcard}) && dflt)

/-! ## The set model -/

theorem sets.mem_keys_foldl_Insert (items : List String) (s : sets.Set) (x : String) :
    x ∈ (items.foldl sets.Set.Insert s).keys ↔ x ∈ s.keys ∨ x ∈ items := by
  induction items generalizing s with
  | nil => simp
  | cons a t ih =>
    rw [List.foldl_cons, ih]
    unfold sets.Set.Insert
    by_cases h : a ∈ s.keys
    · rw [if_pos h]
      constructor
      · rintro (hx | hx)
        · exact Or.inl hx
        · exact Or.inr (List.mem_cons_of_mem _ hx)
      · rintro (hx | hx)
        · exact Or.inl hx
        · rcases List.mem_cons.mp hx with rfl | hx
          · exact Or.inl h
          · exact Or.inr hx
    · rw [if_neg h]
      simp only [List.mem_append, List.mem_singleton, List.mem_cons]
      tauto

theorem sets.nodup_keys_foldl_Insert (items : List String) (s : sets.Set)
    (hs : s.keys.Nodup) : (items.foldl sets.Set.Insert s).keys.Nodup := by
  induction items generalizing s with
  | nil => simpa using hs
  | cons a t ih =>
    rw [List.foldl_cons]
    apply ih
    unfold sets.Set.Insert
    by_cases h : a ∈ s.keys
    · rw [if_pos h]
      exact hs
    · rw [if_neg h]
      exact List.Nodup.append hs (List.nodup_singleton a) (by simpa using h)

theorem sets.Has_New (items : List String) (x : String) :
    (sets.New items).Has x = decide (x ∈ items) := by
  unfold sets.Set.Has sets.New
  have h := sets.mem_keys_foldl_Insert items ⟨[]⟩ x
  simp only [List.not_mem_nil, false_or] at h
  exact decide_eq_decide.mpr h

theorem sets.keys_New_toFinset (items : List String) :
    (sets.New items).keys.toFinset = items.toFinset := by
  ext x
  have h := sets.mem_keys_foldl_Insert items ⟨[]⟩ x
  simp only [List.not_mem_nil, false_or] at h
  simpa [sets.New] using h

theorem sets.Len_New (items : List String) :
    (sets.New items).Len = items.toFinset.card := by
  rw [← sets.keys_New_toFinset]
  unfold sets.Set.Len
  exact (List.toFinset_card_of_nodup
    (sets.nodup_keys_foldl_Insert items ⟨[]⟩ List.nodup_nil)).symm

/-- The wildcard test of `InitializeLinters`, `s.Len() == 1 && s.Has(w)`, holds
exactly when the set of the entries is the singleton of `w`. -/
theorem sets.wildcard_test (items : List String) (w : String) :
    ((sets.New items).Len == 1 && (sets.New items).Has w) = decide (items.toFinset = {w}) := by
  rw [sets.Len_New, sets.Has_New]
  by_cases h : items.toFinset = {w}
  · have hw : w ∈ items := by
      have : w ∈ items.toFinset := by rw [h]; exact Finset.mem_singleton_self w
      simpa using this
    simp [h, hw]
  · rw [decide_eq_false h]
    by_cases hc : items.toFinset.card = 1
    · obtain ⟨a, ha⟩ := Finset.card_eq_one.mp hc
      have hw : w ∉ items := by
        intro hw
        have : w ∈ items.toFinset := by simpa using hw
        rw [ha, Finset.mem_singleton] at this
        exact h (this ▸ ha)
      simp [hw]
    · simp [hc]

/-! ## The loop of `InitializeLinters` as a filter -/

theorem foldl_append_if {α β : Type} (p : α → Bool) (f : α → β) (l : List α) (acc : List β) :
    l.foldl (fun analyzers i => if p i then analyzers ++ [f i] else analyzers) acc =
      acc ++ (l.filter p).map f := by
  induction l generalizing acc with
  | nil => simp
  | cons a t ih =>
    rw [List.foldl_cons, ih]
    by_cases h : p a = true
    · simp [h]
    · simp [h]

theorem InitializeLinters_eq_filter {Analyzer : Type} (r : registry Analyzer)
    (cfg : config.Linters) (lintersCfg : config.LintersConfig) :
    r.InitializeLinters cfg lintersCfg =
      (r.initializers.filter (fun i => selects cfg i.Name i.Default)).map
        (fun i => i.Init lintersCfg) := by
  unfold registry.InitializeLinters
  simp only []
  rw [foldl_append_if, List.nil_append]
  congr 1
  apply List.filter_congr
  intro i _
  unfold selects
  rw [sets.wildcard_test, sets.wildcard_test, sets.Has_New, sets.Has_New]
  simp

theorem selects_eq_true_iff (cfg : config.Linters) (name : String) (dflt : Bool) :
    selects cfg name dflt = true ↔
      name ∉ cfg.Disable ∧ (cfg.Enable.toFinset = {"*"} ∨ name ∈ cfg.Enable ∨
        (cfg.Disable.toFinset ≠ {"*"} ∧ dflt = true)) := by
  unfold selects config.Wildcard
  simp only [Bool.and_eq_true, Bool.or_eq_true, decide_eq_true_eq, Bool.not_eq_true',
    decide_eq_false_iff_not, ne_eq, or_assoc]

/-! ## Resolution -/

/-- C1: `InitializeLinters` equals the reference resolution: the initializers
kept, in registration order, are those whose name is not in the set `D` of the
`Disable` entries and for which `allEnabled`, or the name is in the set `E` of
the `Enable` entries, or not `allDisabled` and the default flag is set; `Init`
is applied to each of them once. -/
theorem InitializeLinters_eq_referenceResolution {Analyzer : Type} (r : registry Analyzer)
    (cfg : config.Linters) (lintersCfg : config.LintersConfig) :
    r.InitializeLinters cfg lintersCfg =
      referenceResolution r.initializers cfg.Enable cfg.Disable lintersCfg := by
  rw [InitializeLinters_eq_filter]
  unfold referenceResolution
  simp only []
  congr 1
  apply List.filter_congr
  intro i _
  rw [Bool.eq_iff_iff, selects_eq_true_iff]
  simp only [decide_eq_true_eq, List.mem_toFinset, ne_eq]

/-- C2: explicit disable dominates everything: the result of `InitializeLinters`
is `Init` applied to a sublist of the initializers none of whose names is an
entry of `Disable`, whatever `Enable` and the default flags are, and it is the
result the registry gives once every initializer named in `Disable` is removed
from it. -/
theorem InitializeLinters_disable_dominates {Analyzer : Type} (r : registry Analyzer)
    (cfg : config.Linters) (lintersCfg : config.LintersConfig) :
    (∃ kept : List (AnalyzerInitializer Analyzer),
      kept.Sublist r.initializers ∧ (∀ i ∈ kept, i.Name ∉ cfg.Disable) ∧
        r.InitializeLinters cfg lintersCfg = kept.map (fun i => i.Init lintersCfg)) ∧
    r.InitializeLinters cfg lintersCfg =
      (registry.mk (r.initializers.filter (fun i => decide (i.Name ∉ cfg.Disable)))).InitializeLinters
        cfg lintersCfg := by
  constructor
  · refine ⟨r.initializers.filter (fun i => selects cfg i.Name i.Default),
      List.filter_sublist _, ?_, InitializeLinters_eq_filter r cfg lintersCfg⟩
    intro i hi
    exact ((selects_eq_true_iff cfg i.Name i.Default).mp (List.mem_filter.mp hi).2).1
  · rw [InitializeLinters_eq_filter, InitializeLinters_eq_filter]
    simp only [List.filter_filter]
    congr 1
    apply List.filter_congr
    intro i _
    rw [Bool.eq_iff_iff, Bool.and_eq_true, selects_eq_true_iff, decide_eq_true_eq]
    tauto

/-- C3: with unique names, none of them the wildcard, and `n` a default-off
initializer of the registry, `Enable = [n.Name]` and `Disable = []` give, in
registration order, the products of the default-on initializers and the product
of `n`, and nothing else. -/
theorem InitializeLinters_enable_default_off {Analyzer : Type}
    (pre post : List (AnalyzerInitializer Analyzer)) (n : AnalyzerInitializer Analyzer)
    (lintersCfg : config.LintersConfig)
    (hnodup : ((pre ++ n :: post).map (fun i => i.Name)).Nodup)
    (hwild : ∀ i ∈ pre ++ n :: post, i.Name ≠ "*")
    (_hoff : n.Default = false) :
    (registry.mk (pre ++ n :: post)).InitializeLinters ⟨[n.Name], []⟩ lintersCfg =
      (pre.filter (fun i => i.Default)).map (fun i => i.Init lintersCfg) ++
        n.Init lintersCfg :: (post.filter (fun i => i.Default)).map (fun i => i.Init lintersCfg) := by
  have hn : n.Name ≠ "*" := hwild n (by simp)
  have hE : ([n.Name] : List String).toFinset ≠ {"*"} := by
    intro h
    have : n.Name ∈ ({"*"} : Finset String) := by rw [← h]; simp
    exact hn (Finset.mem_singleton.mp this)
  have hsel : ∀ i : AnalyzerInitializer Analyzer,
      selects ⟨[n.Name], []⟩ i.Name i.Default = (decide (i.Name = n.Name) || i.Default) := by
    intro i
    have h0 : ¬ (∅ : Finset String) = {"*"} := fun h => Finset.singleton_ne_empty _ h.symm
    rw [Bool.eq_iff_iff, selects_eq_true_iff]
    simp [hn, h0]
  rw [List.map_append, List.map_cons, List.nodup_append] at hnodup
  obtain ⟨_, hpost, hdisj⟩ := hnodup
  have hpre : ∀ i ∈ pre, i.Name ≠ n.Name := by
    intro i hi h
    exact hdisj (List.mem_map.mpr ⟨i, hi, rfl⟩) (h ▸ List.mem_cons_self _ _)
  have hpost2 : ∀ i ∈ post, i.Name ≠ n.Name := by
    intro i hi h
    exact (List.nodup_cons.mp hpost).1 (h ▸ List.mem_map.mpr ⟨i, hi, rfl⟩)
  rw [InitializeLinters_eq_filter]
  simp only [hsel, List.filter_append, List.map_append]
  have e1 : pre.filter (fun i => decide (i.Name = n.Name) || i.Default) =
      pre.filter (fun i => i.Default) := by
    apply List.filter_congr
    intro i hi
    simp [hpre i hi]
  have e2 : post.filter (fun i => decide (i.Name = n.Name) || i.Default) =
      post.filter (fun i => i.Default) := by
    apply List.filter_congr
    intro i hi
    simp [hpost2 i hi]
  rw [e1, List.filter_cons_of_pos (by simp), e2, List.map_cons]

/-- Witness of C3: rules `A` (on), `B` (off), `C` (on) with `Enable = [B]` give
`[A, B, C]`. -/
theorem InitializeLinters_enable_default_off_witness :
    (([rule "A" true] ++ rule "B" false :: [rule "C" true]).map (fun i => i.Name)).Nodup ∧
    (∀ i ∈ [rule "A" true] ++ rule "B" false :: [rule "C" true], i.Name ≠ "*") ∧
    (rule "B" false).Default = false ∧
    exampleRegistry.InitializeLinters ⟨["B"], []⟩ config.LintersConfig.zero = ["A", "B", "C"] :=
  ⟨by decide, by simp [rule], rfl,
    InitializeLinters_enable_default_off [rule "A" true] [rule "C" true] (rule "B" false)
      config.LintersConfig.zero (by decide) (by simp [rule]) rfl⟩

/-- C4: with `Enable` empty and `Disable = ["*"]` nothing is instantiated,
whatever the default flags are. -/
theorem InitializeLinters_wildcard_disable_nil {Analyzer : Type} (r : registry Analyzer)
    (lintersCfg : config.LintersConfig) :
    r.InitializeLinters ⟨[], ["*"]⟩ lintersCfg = [] := by
  rw [InitializeLinters_eq_filter]
  have h : r.initializers.filter (fun i => selects ⟨[], ["*"]⟩ i.Name i.Default) = [] := by
    apply List.filter_eq_nil_iff.mpr
    intro i _
    have h0 : ¬ (∅ : Finset String) = {"*"} := fun h => Finset.singleton_ne_empty _ h.symm
    rw [selects_eq_true_iff]
    simp [h0]
  rw [h, List.map_nil]

/-- C5: the wildcard disable does not suppress the names enabled explicitly:
with `Enable = S`, a list of concrete names, and `Disable = ["*"]` the result
is, in registration order, the products of the initializers whose name is in
`S`, whatever their default flags, and of no other initializer. -/
theorem InitializeLinters_wildcard_disable_explicit_enable {Analyzer : Type}
    (r : registry Analyzer) (S : List String) (lintersCfg : config.LintersConfig)
    (hS : "*" ∉ S) :
    r.InitializeLinters ⟨S, ["*"]⟩ lintersCfg =
      (r.initializers.filter (fun i => decide (i.Name ∈ S))).map (fun i => i.Init lintersCfg) := by
  rw [InitializeLinters_eq_filter]
  congr 1
  apply List.filter_congr
  intro i _
  rw [Bool.eq_iff_iff, selects_eq_true_iff, decide_eq_true_eq]
  have hE : S.toFinset ≠ {"*"} := by
    intro h
    have : "*" ∈ S.toFinset := by rw [h]; exact Finset.mem_singleton_self _
    exact hS (List.mem_toFinset.mp this)
  constructor
  · rintro ⟨_, h | h | ⟨h, _⟩⟩
    · exact absurd h hE
    · exact h
    · exact absurd (by simp) h
  · intro h
    refine ⟨?_, Or.inr (Or.inl h)⟩
    simp only [List.mem_singleton]
    intro hi
    exact hS (hi ▸ h)

/-- Witness of C5: the registry `A` (on), `B` (off), `C` (on) with
`Enable = ["B"]`, `Disable = ["*"]` instantiates `B` alone. -/
theorem InitializeLinters_wildcard_disable_explicit_enable_witness :
    "*" ∉ ["B"] ∧
    exampleRegistry.InitializeLinters ⟨["B"], ["*"]⟩ config.LintersConfig.zero = ["B"] :=
  ⟨by decide,
    (InitializeLinters_wildcard_disable_explicit_enable exampleRegistry ["B"]
      config.LintersConfig.zero (by decide)).trans (by decide)⟩

theorem wildcard_singleton_insert_iff (u : String) (pre post : List String)
    (h1 : u = "*" → pre ++ post ≠ [])
    (h2 : u ≠ "*" → (pre ++ post).toFinset ≠ {"*"}) :
    (pre ++ u :: post).toFinset = {"*"} ↔ (pre ++ post).toFinset = {"*"} := by
  have hins : (pre ++ u :: post).toFinset = insert u (pre ++ post).toFinset := by
    ext x
    simp only [List.mem_toFinset, List.mem_append, List.mem_cons, Finset.mem_insert]
    tauto
  rw [hins]
  by_cases hu : u = "*"
  · subst hu
    constructor
    · intro h
      have hsub : (pre ++ post).toFinset ⊆ {"*"} := by
        rw [← h]
        exact Finset.subset_insert _ _
      rcases Finset.subset_singleton_iff.mp hsub with he | he
      · exact absurd (List.toFinset_eq_empty_iff _ |>.mp he) (h1 rfl)
      · exact he
    · intro h
      rw [h]
      exact Finset.insert_eq_of_mem (Finset.mem_singleton_self _)
  · constructor
    · intro h
      have : u ∈ ({"*"} : Finset String) := by
        rw [← h]
        exact Finset.mem_insert_self _ _
      exact absurd (Finset.mem_singleton.mp this) hu
    · intro h
      exact absurd h (h2 hu)

/-- Counterexample to C6 as stated, in the registry `A` (on), `B` (off), `C` (on),
where neither `unknown` nor `*` names a rule: adding `unknown` to
`Enable = ["*"]` drops `B` from the result, adding it to `Disable = ["*"]`
brings `A` and `C` back, and adding `*` to the empty `Enable` adds `B`. -/
theorem InitializeLinters_unknown_name_not_inert :
    (∀ i ∈ exampleRegistry.initializers, i.Name ≠ "unknown" ∧ i.Name ≠ "*") ∧
    exampleRegistry.InitializeLinters ⟨["*"], []⟩ config.LintersConfig.zero = ["A", "B", "C"] ∧
    exampleRegistry.InitializeLinters ⟨["*", "unknown"], []⟩ config.LintersConfig.zero
      = ["A", "C"] ∧
    exampleRegistry.InitializeLinters ⟨[], ["*"]⟩ config.LintersConfig.zero = [] ∧
    exampleRegistry.InitializeLinters ⟨[], ["*", "unknown"]⟩ config.LintersConfig.zero
      = ["A", "C"] ∧
    exampleRegistry.InitializeLinters ⟨[], []⟩ config.LintersConfig.zero = ["A", "C"] := by
  decide

/-- C6 (amended): a name `u` of no registered initializer is inert wherever
adding it does not change whether the list is exactly the wildcard singleton:
adding `u` anywhere in `Enable` (in `Disable`) leaves the result of
`InitializeLinters` unchanged, unless `u` is not the wildcard and the entries of
the list are exactly the wildcard, or `u` is the wildcard and the list is empty. -/
theorem InitializeLinters_unknown_name_inert {Analyzer : Type} (r : registry Analyzer)
    (lintersCfg : config.LintersConfig) (u : String)
    (preE postE D E preD postD : List String)
    (hu : ∀ i ∈ r.initializers, i.Name ≠ u)
    (hE1 : u = "*" → preE ++ postE ≠ [])
    (hE2 : u ≠ "*" → (preE ++ postE).toFinset ≠ {"*"})
    (hD1 : u = "*" → preD ++ postD ≠ [])
    (hD2 : u ≠ "*" → (preD ++ postD).toFinset ≠ {"*"}) :
    r.InitializeLinters ⟨preE ++ u :: postE, D⟩ lintersCfg =
      r.InitializeLinters ⟨preE ++ postE, D⟩ lintersCfg ∧
    r.InitializeLinters ⟨E, preD ++ u :: postD⟩ lintersCfg =
      r.InitializeLinters ⟨E, preD ++ postD⟩ lintersCfg := by
  have hmem : ∀ (pre post : List String) (i : AnalyzerInitializer Analyzer),
      i ∈ r.initializers → (i.Name ∈ pre ++ u :: post ↔ i.Name ∈ pre ++ post) := by
    intro pre post i hi
    have := hu i hi
    simp only [List.mem_append, List.mem_cons]
    tauto
  constructor
  · rw [InitializeLinters_eq_filter, InitializeLinters_eq_filter]
    congr 1
    apply List.filter_congr
    intro i hi
    rw [Bool.eq_iff_iff, selects_eq_true_iff, selects_eq_true_iff]
    simp only [wildcard_singleton_insert_iff u preE postE hE1 hE2, hmem preE postE i hi]
  · rw [InitializeLinters_eq_filter, InitializeLinters_eq_filter]
    congr 1
    apply List.filter_congr
    intro i hi
    rw [Bool.eq_iff_iff, selects_eq_true_iff, selects_eq_true_iff]
    simp only [ne_eq, wildcard_singleton_insert_iff u preD postD hD1 hD2, hmem preD postD i hi]

/-- Witness of C6 (amended): in the registry `A` (on), `B` (off), `C` (on),
adding `unknown` to `Enable = ["B"]` or to `Disable = ["C"]` changes nothing. -/
theorem InitializeLinters_unknown_name_inert_witness :
    (∀ i ∈ exampleRegistry.initializers, i.Name ≠ "unknown") ∧
    exampleRegistry.InitializeLinters ⟨["B"] ++ "unknown" :: [], ["C"]⟩ config.LintersConfig.zero =
      exampleRegistry.InitializeLinters ⟨["B"] ++ [], ["C"]⟩ config.LintersConfig.zero ∧
    exampleRegistry.InitializeLinters ⟨["B"], [] ++ "unknown" :: ["C"]⟩ config.LintersConfig.zero =
      exampleRegistry.InitializeLinters ⟨["B"], [] ++ ["C"]⟩ config.LintersConfig.zero :=
  ⟨by decide,
    InitializeLinters_unknown_name_inert exampleRegistry config.LintersConfig.zero "unknown"
      ["B"] [] ["C"] ["B"] [] ["C"] (by decide) (by decide) (by decide) (by decide) (by decide)⟩

/-! ## Name queries -/

theorem AllLinters_eq_New {Analyzer : Type} (r : registry Analyzer) :
    r.AllLinters = sets.New (r.initializers.map (fun i => i.Name)) := by
  unfold registry.AllLinters sets.New
  rw [List.foldl_map]
  rfl

theorem foldl_Insert_if_Default {Analyzer : Type} (l : List (AnalyzerInitializer Analyzer))
    (s : sets.Set) :
    l.foldl (fun defaultLinters initializer =>
        if initializer.Default then defaultLinters.Insert initializer.Name else defaultLinters) s =
      ((l.filter (fun i => i.Default)).map (fun i => i.Name)).foldl sets.Set.Insert s := by
  induction l generalizing s with
  | nil => rfl
  | cons a t ih =>
    rw [List.foldl_cons, ih]
    by_cases h : a.Default = true
    · simp [h]
    · simp [h]

theorem DefaultLinters_eq_New {Analyzer : Type} (r : registry Analyzer) :
    r.DefaultLinters =
      sets.New ((r.initializers.filter (fun i => i.Default)).map (fun i => i.Name)) := by
  unfold registry.DefaultLinters
  rw [foldl_Insert_if_Default]
  rfl

/-- C7: for a registry with unique names, `AllLinters` is the set of the names:
a name is a member iff some registered initializer has it, and the size of the
set is the number of initializers. -/
theorem AllLinters_exact {Analyzer : Type} (r : registry Analyzer)
    (hnodup : (r.initializers.map (fun i => i.Name)).Nodup) :
    (∀ n : String, r.AllLinters.Has n = true ↔ ∃ i ∈ r.initializers, i.Name = n) ∧
      r.AllLinters.Len = r.initializers.length := by
  rw [AllLinters_eq_New]
  constructor
  · intro n
    rw [sets.Has_New, decide_eq_true_eq, List.mem_map]
  · rw [sets.Len_New, List.toFinset_card_of_nodup hnodup, List.length_map]

/-- Witness of C7: the registry `A`, `B`, `C` has unique names and three members. -/
theorem AllLinters_exact_witness :
    (exampleRegistry.initializers.map (fun i => i.Name)).Nodup ∧
    (∀ n : String, exampleRegistry.AllLinters.Has n = true ↔
      ∃ i ∈ exampleRegistry.initializers, i.Name = n) ∧
    exampleRegistry.AllLinters.Len = 3 :=
  ⟨by decide, AllLinters_exact exampleRegistry (by decide)⟩

/-- C8: `DefaultLinters` is a subset of `AllLinters`, and a name is a member of
`DefaultLinters` iff some registered initializer with that name is on by
default. -/
theorem DefaultLinters_exact {Analyzer : Type} (r : registry Analyzer) :
    (∀ n : String, r.DefaultLinters.Has n = true → r.AllLinters.Has n = true) ∧
    (∀ n : String, r.DefaultLinters.Has n = true ↔
      ∃ i ∈ r.initializers, i.Name = n ∧ i.Default = true) := by
  have hiff : ∀ n : String, r.DefaultLinters.Has n = true ↔
      ∃ i ∈ r.initializers, i.Name = n ∧ i.Default = true := by
    intro n
    rw [DefaultLinters_eq_New, sets.Has_New, decide_eq_true_eq, List.mem_map]
    constructor
    · rintro ⟨i, hi, hn⟩
      exact ⟨i, (List.mem_filter.mp hi).1, hn, (List.mem_filter.mp hi).2⟩
    · rintro ⟨i, hi, hn, hd⟩
      exact ⟨i, List.mem_filter.mpr ⟨hi, hd⟩, hn⟩
  refine ⟨?_, hiff⟩
  intro n hn
  obtain ⟨i, hi, hname, _⟩ := (hiff n).mp hn
  rw [AllLinters_eq_New, sets.Has_New, decide_eq_true_eq, List.mem_map]
  exact ⟨i, hi, hname⟩

/-! ## Determinism -/

theorem sets.InsertWith_perm (layout : sets.Layout) (s : sets.Set) (item : String)
    (h : item ∉ s.keys) : (s.InsertWith layout item).keys.Perm (item :: s.keys) := by
  unfold sets.Set.InsertWith
  rw [if_neg h]
  have hp : (s.keys.take (layout s.keys item) ++ item :: s.keys.drop (layout s.keys item)).Perm
      (item :: (s.keys.take (layout s.keys item) ++ s.keys.drop (layout s.keys item))) :=
    List.perm_middle
  rw [List.take_append_drop] at hp
  exact hp

theorem sets.keys_foldl_InsertWith (layout : sets.Layout) (items : List String) (s : sets.Set)
    (hs : s.keys.Nodup) :
    (items.foldl (sets.Set.InsertWith layout) s).keys.Nodup ∧
      ∀ x : String, x ∈ (items.foldl (sets.Set.InsertWith layout) s).keys ↔
        x ∈ s.keys ∨ x ∈ items := by
  induction items generalizing s with
  | nil => exact ⟨hs, fun x => by simp⟩
  | cons a t ih =>
    rw [List.foldl_cons]
    by_cases h : a ∈ s.keys
    · have hst : s.InsertWith layout a = s := by
        unfold sets.Set.InsertWith
        rw [if_pos h]
      rw [hst]
      refine ⟨(ih s hs).1, fun x => ?_⟩
      rw [(ih s hs).2 x, List.mem_cons]
      constructor
      · rintro (hx | hx)
        · exact Or.inl hx
        · exact Or.inr (Or.inr hx)
      · rintro (hx | rfl | hx)
        · exact Or.inl hx
        · exact Or.inl h
        · exact Or.inr hx
    · have hp := sets.InsertWith_perm layout s a h
      have hnd : (s.InsertWith layout a).keys.Nodup :=
        hp.nodup_iff.mpr (List.nodup_cons.mpr ⟨h, hs⟩)
      refine ⟨(ih _ hnd).1, fun x => ?_⟩
      rw [(ih _ hnd).2 x, hp.mem_iff, List.mem_cons, List.mem_cons]
      tauto

theorem sets.Has_NewWith (layout : sets.Layout) (items : List String) (x : String) :
    (sets.NewWith layout items).Has x = decide (x ∈ items) := by
  unfold sets.Set.Has sets.NewWith
  have h := (sets.keys_foldl_InsertWith layout items ⟨[]⟩ List.nodup_nil).2 x
  simp only [List.not_mem_nil, false_or] at h
  exact decide_eq_decide.mpr h

theorem sets.Len_NewWith (layout : sets.Layout) (items : List String) :
    (sets.NewWith layout items).Len = items.toFinset.card := by
  have hkeys := sets.keys_foldl_InsertWith layout items ⟨[]⟩ List.nodup_nil
  have hfin : (sets.NewWith layout items).keys.toFinset = items.toFinset := by
    ext x
    have h := hkeys.2 x
    simp only [List.not_mem_nil, false_or] at h
    simpa [sets.NewWith] using h
  rw [← hfin]
  unfold sets.Set.Len
  exact (List.toFinset_card_of_nodup hkeys.1).symm

theorem InitializeLintersWith_eq {Analyzer : Type} (layoutE layoutD : sets.Layout)
    (r : registry Analyzer) (cfg : config.Linters) (lintersCfg : config.LintersConfig) :
    r.InitializeLintersWith layoutE layoutD cfg lintersCfg =
      r.InitializeLinters cfg lintersCfg := by
  unfold registry.InitializeLintersWith registry.InitializeLinters
  simp only [sets.Has_NewWith, sets.Len_NewWith, sets.Has_New, sets.Len_New]

theorem takeWhile_ne_append (pre post : List String) (a : String) (h : a ∉ pre) :
    (pre ++ a :: post).takeWhile (fun c => c != a) = pre := by
  induction pre with
  | nil => simp [List.takeWhile]
  | cons b t ih =>
    have hb : b ≠ a := fun hba => h (hba ▸ List.mem_cons_self _ _)
    have ht : a ∉ t := fun hat => h (List.mem_cons_of_mem _ hat)
    rw [List.cons_append, List.takeWhile_cons_of_pos (by simpa using hb), ih ht]

theorem sets.InsertWith_layoutOf (pre post : List String) (a : String) (p : String → Bool)
    (hnd : (pre ++ a :: post).Nodup) (hpa : p a = false) :
    (sets.Set.InsertWith (sets.layoutOf (pre ++ a :: post)) ⟨(pre ++ a :: post).filter p⟩ a).keys =
      (pre ++ a :: post).filter (fun k => p k || k == a) := by
  have hapre : a ∉ pre := fun h => (List.nodup_append.mp hnd).2.2 h (List.mem_cons_self _ _)
  have hapost : a ∉ post := (List.nodup_cons.mp (List.nodup_append.mp hnd).2.1).1
  have hdisj : ∀ k ∈ post, k ∉ pre := fun k hk hk' =>
    (List.nodup_append.mp hnd).2.2 hk' (List.mem_cons_of_mem _ hk)
  have hkeys : (pre ++ a :: post).filter p = pre.filter p ++ post.filter p := by
    rw [List.filter_append, List.filter_cons_of_neg (by simp [hpa])]
  have hnot : a ∉ (pre ++ a :: post).filter p := by
    intro h
    have := (List.mem_filter.mp h).2
    rw [hpa] at this
    exact Bool.false_ne_true this
  have hlay : sets.layoutOf (pre ++ a :: post) (pre.filter p ++ post.filter p) a =
      (pre.filter p).length := by
    unfold sets.layoutOf
    rw [takeWhile_ne_append pre post a hapre, List.filter_append]
    have h1 : (pre.filter p).filter (fun k => decide (k ∈ pre)) = pre.filter p := by
      apply List.filter_eq_self.mpr
      intro k hk
      simpa using (List.mem_filter.mp hk).1
    have h2 : (post.filter p).filter (fun k => decide (k ∈ pre)) = [] := by
      apply List.filter_eq_nil_iff.mpr
      intro k hk
      simpa using hdisj k (List.mem_filter.mp hk).1
    rw [h1, h2, List.append_nil]
  have hpre : pre.filter (fun k => p k || k == a) = pre.filter p := by
    apply List.filter_congr
    intro k hk
    have : k ≠ a := fun h => hapre (h ▸ hk)
    simp [this]
  have hpost : post.filter (fun k => p k || k == a) = post.filter p := by
    apply List.filter_congr
    intro k hk
    have : k ≠ a := fun h => hapost (h ▸ hk)
    simp [this]
  unfold sets.Set.InsertWith
  rw [if_neg hnot]
  simp only [hkeys, hlay, List.take_left', List.drop_left']
  rw [List.filter_append, List.filter_cons_of_pos (by simp), hpre, hpost]

theorem sets.foldl_InsertWith_layoutOf (ks : List String) (hnd : ks.Nodup) (items done : List String)
    (hitems : ∀ x ∈ items, x ∈ ks) :
    (items.foldl (sets.Set.InsertWith (sets.layoutOf ks)) ⟨ks.filter (fun k => decide (k ∈ done))⟩).keys =
      ks.filter (fun k => decide (k ∈ done ++ items)) := by
  induction items generalizing done with
  | nil => simp
  | cons a t ih =>
    rw [List.foldl_cons]
    have hstep : sets.Set.InsertWith (sets.layoutOf ks) ⟨ks.filter (fun k => decide (k ∈ done))⟩ a =
        ⟨ks.filter (fun k => decide (k ∈ done ++ [a]))⟩ := by
      by_cases hmem : a ∈ done
      · have hin : a ∈ ks.filter (fun k => decide (k ∈ done)) :=
          List.mem_filter.mpr ⟨hitems a (List.mem_cons_self _ _), by simpa using hmem⟩
        unfold sets.Set.InsertWith
        rw [if_pos hin]
        congr 1
        apply List.filter_congr
        intro k _
        by_cases hk : k = a
        · simp [hk, hmem]
        · simp [hk]
      · obtain ⟨pre, post, hks⟩ := List.append_of_mem (hitems a (List.mem_cons_self _ _))
        subst hks
        have h := sets.InsertWith_layoutOf pre post a (fun k => decide (k ∈ done)) hnd
          (by simpa using hmem)
        have hgoal : (pre ++ a :: post).filter (fun k => decide (k ∈ done) || k == a) =
            (pre ++ a :: post).filter (fun k => decide (k ∈ done ++ [a])) := by
          apply List.filter_congr
          intro k _
          by_cases hk : k = a
          · simp [hk]
          · simp [hk]
        rw [hgoal] at h
        cases hS : sets.Set.InsertWith (sets.layoutOf (pre ++ a :: post))
          ⟨(pre ++ a :: post).filter (fun k => decide (k ∈ done))⟩ a with
        | mk keys =>
          rw [hS] at h
          simp only at h
          rw [h]
    rw [hstep, ih (done ++ [a]) (fun x hx => hitems x (List.mem_cons_of_mem _ hx)),
      List.append_assoc, List.singleton_append]

/-- Every order of the entries of a list is the order in which some layout stores
them: the layouts cover every order a Go map may hold and range over its keys. -/
theorem sets.NewWith_layoutOf (items ks : List String) (hnd : ks.Nodup)
    (hmem : ∀ x : String, x ∈ ks ↔ x ∈ items) :
    (sets.NewWith (sets.layoutOf ks) items).keys = ks := by
  have h := sets.foldl_InsertWith_layoutOf ks hnd items [] (fun x hx => (hmem x).mpr hx)
  have h0 : ks.filter (fun k => decide (k ∈ ([] : List String))) = [] := by
    apply List.filter_eq_nil_iff.mpr
    intro k _
    simp
  rw [h0] at h
  unfold sets.NewWith
  rw [h]
  apply List.filter_eq_self.mpr
  intro k hk
  simpa using (hmem k).mp hk

/-- C9: `InitializeLinters` is deterministic. Two calls on a fixed registry with
the same request and the same config return equal lists, whatever the layouts
of the maps that each call makes, that is whatever the order in which the keys
of the two sets are stored and ranged over in each call; the common value is
the one of `registry.InitializeLinters`. The initializers answer `Name`,
`Default` and `Init` alike in both calls. -/
theorem InitializeLinters_deterministic {Analyzer : Type} (r : registry Analyzer)
    (layoutE₁ layoutD₁ layoutE₂ layoutD₂ : sets.Layout)
    (cfg₁ cfg₂ : config.Linters) (lc₁ lc₂ : config.LintersConfig)
    (hE : cfg₁.Enable = cfg₂.Enable) (hD : cfg₁.Disable = cfg₂.Disable) (hlc : lc₁ = lc₂) :
    r.InitializeLintersWith layoutE₁ layoutD₁ cfg₁ lc₁ =
      r.InitializeLintersWith layoutE₂ layoutD₂ cfg₂ lc₂ ∧
    r.InitializeLintersWith layoutE₁ layoutD₁ cfg₁ lc₁ = r.InitializeLinters cfg₁ lc₁ := by
  have hcfg : cfg₁ = cfg₂ := by
    cases cfg₁
    cases cfg₂
    simp only at hE hD
    rw [hE, hD]
  subst hcfg
  subst hlc
  exact ⟨(InitializeLintersWith_eq layoutE₁ layoutD₁ r cfg₁ lc₁).trans
    (InitializeLintersWith_eq layoutE₂ layoutD₂ r cfg₁ lc₁).symm,
    InitializeLintersWith_eq layoutE₁ layoutD₁ r cfg₁ lc₁⟩

/-- Witness of C9: on the registry `A` (on), `B` (off), `C` (on) with
`Enable = ["B", "A"]` and `Disable = ["C", "*"]`, a call whose maps store new
keys in front and a call whose maps store them at the back hold the keys in
different orders and return the same list. -/
theorem InitializeLinters_deterministic_witness :
    (sets.NewWith sets.layoutFront ["B", "A"]).keys = ["A", "B"] ∧
    (sets.NewWith sets.layoutBack ["B", "A"]).keys = ["B", "A"] ∧
    exampleRegistry.InitializeLintersWith sets.layoutFront sets.layoutFront
        ⟨["B", "A"], ["C", "*"]⟩ config.LintersConfig.zero = ["A", "B"] ∧
    (exampleRegistry.InitializeLintersWith sets.layoutFront sets.layoutFront
        ⟨["B", "A"], ["C", "*"]⟩ config.LintersConfig.zero =
      exampleRegistry.InitializeLintersWith sets.layoutBack sets.layoutBack
        ⟨["B", "A"], ["C", "*"]⟩ config.LintersConfig.zero ∧
    exampleRegistry.InitializeLintersWith sets.layoutFront sets.layoutFront
        ⟨["B", "A"], ["C", "*"]⟩ config.LintersConfig.zero =
      exampleRegistry.InitializeLinters ⟨["B", "A"], ["C", "*"]⟩ config.LintersConfig.zero) :=
  ⟨by decide, by decide, by decide,
    InitializeLinters_deterministic exampleRegistry sets.layoutFront sets.layoutFront
      sets.layoutBack sets.layoutBack ⟨["B", "A"], ["C", "*"]⟩ ⟨["B", "A"], ["C", "*"]⟩
      config.LintersConfig.zero config.LintersConfig.zero rfl rfl rfl⟩

/-! ## Validation of the linters configuration -/

theorem enumDetail_optional :
    validation.enumDetail
        [optionalorrequired.OptionalMarker, optionalorrequired.KubebuilderOptionalMarker] =
      "invalid value, must be one of \"optional\", \"kubebuilder:validation:Optional\" or omitted" := by
  decide

theorem enumDetail_required :
    validation.enumDetail
        [optionalorrequired.RequiredMarker, optionalorrequired.KubebuilderRequiredMarker] =
      "invalid value, must be one of \"required\", \"kubebuilder:validation:Required\" or omitted" := by
  decide

theorem filter_validateJSONTagsConfig (regexpCompile : String → Option String)
    (jtc : config.JSONTagsConfig) (basePath : field.Path) (fld : String) :
    (validation.validateJSONTagsConfig regexpCompile jtc (basePath.Child "jsonTags")).filter
      (fun e => decide (e.Field = ⟨basePath.segments ++ ["optionalOrRequired", fld]⟩)) = [] := by
  unfold validation.validateJSONTagsConfig
  split
  · rfl
  · split
    · rfl
    · simp [field.Invalid, field.Path.Child]

theorem filter_validateEnum (value : String) (allowed : List String) (p q : field.Path) :
    (validation.validateEnum value allowed p).filter (fun e => decide (e.Field = q)) =
      if p = q then validation.validateEnum value allowed p else [] := by
  unfold validation.validateEnum
  by_cases hv : value = "" ∨ value ∈ allowed
  · simp [hv]
  · by_cases hpq : p = q
    · simp [hv, hpq, field.Invalid]
    · simp [hv, hpq, field.Invalid]

/-- C10: enum validation of the preferred markers. For every config and base
path, the errors of `ValidateLintersConfig` at the path
`basePath.optionalOrRequired.preferredOptionalMarker` are none when the value is
empty, `optional` or `kubebuilder:validation:Optional`, and otherwise exactly
one, carrying the value and the message that lists the two allowed literals in
order; likewise for `preferredRequiredMarker`. For the value `invalid` under
the base path `lintersConfig` the one error renders as the test expects. -/
theorem ValidateLintersConfig_preferred_markers (regexpCompile : String → Option String)
    (lc : config.LintersConfig) (basePath : field.Path) :
    (validation.ValidateLintersConfig regexpCompile lc basePath).filter
        (fun e => decide (e.Field =
          ⟨basePath.segments ++ ["optionalOrRequired", "preferredOptionalMarker"]⟩)) =
      (if lc.OptionalOrRequired.PreferredOptionalMarker ∈
          ["", "optional", "kubebuilder:validation:Optional"] then []
        else [⟨⟨basePath.segments ++ ["optionalOrRequired", "preferredOptionalMarker"]⟩,
          lc.OptionalOrRequired.PreferredOptionalMarker,
          "invalid value, must be one of \"optional\", \"kubebuilder:validation:Optional\" or omitted"⟩]) ∧
    (validation.ValidateLintersConfig regexpCompile lc basePath).filter
        (fun e => decide (e.Field =
          ⟨basePath.segments ++ ["optionalOrRequired", "preferredRequiredMarker"]⟩)) =
      (if lc.OptionalOrRequired.PreferredRequiredMarker ∈
          ["", "required", "kubebuilder:validation:Required"] then []
        else [⟨⟨basePath.segments ++ ["optionalOrRequired", "preferredRequiredMarker"]⟩,
          lc.OptionalOrRequired.PreferredRequiredMarker,
          "invalid value, must be one of \"required\", \"kubebuilder:validation:Required\" or omitted"⟩]) ∧
    (validation.ValidateLintersConfig regexpCompile ⟨⟨""⟩, ⟨"invalid", ""⟩⟩
        (field.NewPath "lintersConfig")).map field.Error.Error =
      ["lintersConfig.optionalOrRequired.preferredOptionalMarker: Invalid value: \"invalid\": invalid value, must be one of \"optional\", \"kubebuilder:validation:Optional\" or omitted"] := by
  have hchild : ∀ fld : String, ((basePath.Child "optionalOrRequired").Child fld) =
      ⟨basePath.segments ++ ["optionalOrRequired", fld]⟩ := by
    intro fld
    simp [field.Path.Child]
  have hne : ∀ a b : String, a ≠ b →
      (⟨basePath.segments ++ ["optionalOrRequired", a]⟩ : field.Path) ≠
        ⟨basePath.segments ++ ["optionalOrRequired", b]⟩ := by
    intro a b hab h
    simp only [field.Path.mk.injEq, List.append_cancel_left_eq, List.cons.injEq, true_and,
      and_true] at h
    exact hab h
  refine ⟨?_, ?_, ?_⟩
  · unfold validation.ValidateLintersConfig validation.validateOptionalOrRequiredConfig
    rw [List.filter_append, List.filter_append,
      filter_validateJSONTagsConfig regexpCompile _ basePath _,
      filter_validateEnum, filter_validateEnum, hchild, hchild, if_pos rfl,
      if_neg (hne _ _ (by decide)), List.nil_append, List.append_nil]
    unfold validation.validateEnum
    rw [enumDetail_optional]
    simp only [optionalorrequired.OptionalMarker, optionalorrequired.KubebuilderOptionalMarker,
      field.Invalid, List.mem_cons, List.mem_singleton, List.not_mem_nil, or_false]
  · unfold validation.ValidateLintersConfig validation.validateOptionalOrRequiredConfig
    rw [List.filter_append, List.filter_append,
      filter_validateJSONTagsConfig regexpCompile _ basePath _,
      filter_validateEnum, filter_validateEnum, hchild, hchild, if_pos rfl,
      if_neg (hne _ _ (by decide)), List.nil_append, List.nil_append]
    unfold validation.validateEnum
    rw [enumDetail_required]
    simp only [optionalorrequired.RequiredMarker, optionalorrequired.KubebuilderRequiredMarker,
      field.Invalid, List.mem_cons, List.mem_singleton, List.not_mem_nil, or_false]
  · have hjson : validation.validateJSONTagsConfig regexpCompile ⟨""⟩
        ((field.NewPath "lintersConfig").Child "jsonTags") = [] := by
      unfold validation.validateJSONTagsConfig
      rw [if_pos rfl]
    unfold validation.ValidateLintersConfig
    rw [hjson, List.nil_append]
    rfl

theorem validateJSONTagsConfig_eq (regexpCompile : String → Option String)
    (jtc : config.JSONTagsConfig) (basePath : field.Path) :
    validation.validateJSONTagsConfig regexpCompile jtc (basePath.Child "jsonTags") =
      if jtc.JSONTagRegex = "" then []
      else ((regexpCompile jtc.JSONTagRegex).map
        (fun err => (⟨⟨basePath.segments ++ ["jsonTags", "jsonTagRegex"]⟩, jtc.JSONTagRegex,
          "invalid regex: " ++ err⟩ : field.Error))).toList := by
  unfold validation.validateJSONTagsConfig
  by_cases h : jtc.JSONTagRegex = ""
  · rw [if_pos h, if_pos h]
  · rw [if_neg h, if_neg h]
    cases regexpCompile jtc.JSONTagRegex with
    | none => rfl
    | some err => simp [field.Invalid, field.Path.Child]

theorem validateOptionalOrRequiredConfig_eq (oorc : config.OptionalOrRequiredConfig)
    (basePath : field.Path) :
    validation.validateOptionalOrRequiredConfig oorc (basePath.Child "optionalOrRequired") =
      (if oorc.PreferredOptionalMarker ∈ ["", "optional", "kubebuilder:validation:Optional"]
        then []
        else [(⟨⟨basePath.segments ++ ["optionalOrRequired", "preferredOptionalMarker"]⟩,
          oorc.PreferredOptionalMarker,
          "invalid value, must be one of \"optional\", \"kubebuilder:validation:Optional\" or omitted"⟩ :
            field.Error)]) ++
      (if oorc.PreferredRequiredMarker ∈ ["", "required", "kubebuilder:validation:Required"]
        then []
        else [(⟨⟨basePath.segments ++ ["optionalOrRequired", "preferredRequiredMarker"]⟩,
          oorc.PreferredRequiredMarker,
          "invalid value, must be one of \"required\", \"kubebuilder:validation:Required\" or omitted"⟩ :
            field.Error)]) := by
  unfold validation.validateOptionalOrRequiredConfig validation.validateEnum
  rw [enumDetail_optional, enumDetail_required]
  simp only [optionalorrequired.OptionalMarker, optionalorrequired.KubebuilderOptionalMarker,
    optionalorrequired.RequiredMarker, optionalorrequired.KubebuilderRequiredMarker,
    field.Invalid, field.Path.Child, List.mem_cons, List.mem_singleton, List.not_mem_nil,
    or_false, List.append_assoc, List.singleton_append]

theorem ValidateLintersConfig_eq (regexpCompile : String → Option String)
    (lc : config.LintersConfig) (basePath : field.Path) :
    validation.ValidateLintersConfig regexpCompile lc basePath =
      (if lc.JSONTags.JSONTagRegex = "" then []
        else ((regexpCompile lc.JSONTags.JSONTagRegex).map
          (fun err => (⟨⟨basePath.segments ++ ["jsonTags", "jsonTagRegex"]⟩,
            lc.JSONTags.JSONTagRegex, "invalid regex: " ++ err⟩ : field.Error))).toList) ++
      ((if lc.OptionalOrRequired.PreferredOptionalMarker ∈
          ["", "optional", "kubebuilder:validation:Optional"] then []
        else [(⟨⟨basePath.segments ++ ["optionalOrRequired", "preferredOptionalMarker"]⟩,
          lc.OptionalOrRequired.PreferredOptionalMarker,
          "invalid value, must be one of \"optional\", \"kubebuilder:validation:Optional\" or omitted"⟩ :
            field.Error)]) ++
      (if lc.OptionalOrRequired.PreferredRequiredMarker ∈
          ["", "required", "kubebuilder:validation:Required"] then []
        else [(⟨⟨basePath.segments ++ ["optionalOrRequired", "preferredRequiredMarker"]⟩,
          lc.OptionalOrRequired.PreferredRequiredMarker,
          "invalid value, must be one of \"required\", \"kubebuilder:validation:Required\" or omitted"⟩ :
            field.Error)])) := by
  unfold validation.ValidateLintersConfig
  rw [validateJSONTagsConfig_eq, validateOptionalOrRequiredConfig_eq]

theorem path_family_ne (basePath : field.Path) (a b c d : String) (h : a ≠ c ∨ b ≠ d) :
    (⟨basePath.segments ++ [a, b]⟩ : field.Path) ≠ ⟨basePath.segments ++ [c, d]⟩ := by
  intro heq
  simp only [field.Path.mk.injEq, List.append_cancel_left_eq, List.cons.injEq, and_true] at heq
  rcases h with h | h
  · exact h heq.1
  · exact h heq.2

/-- C11: pattern validation of `JSONTags.JSONTagRegex`. For every config, base
path and compiler, the errors of `ValidateLintersConfig` at the path
`basePath.jsonTags.jsonTagRegex` are none when the value is empty or compiles,
and exactly one when it does not, whose message is `invalid regex: ` followed
by the compiler's diagnostic as it is. With a compiler that reports the missing
parenthesis of the test's expression, the one error renders as the test expects. -/
theorem ValidateLintersConfig_jsonTagRegex (regexpCompile goCompile : String → Option String)
    (lc : config.LintersConfig) (basePath : field.Path)
    (hgo : goCompile "^[a-z][a-z0-9]*(?:[A-Z][a-z0-9]*" =
      some "error parsing regexp: missing closing ): `^[a-z][a-z0-9]*(?:[A-Z][a-z0-9]*`") :
    (validation.ValidateLintersConfig regexpCompile lc basePath).filter
        (fun e => decide (e.Field = ⟨basePath.segments ++ ["jsonTags", "jsonTagRegex"]⟩)) =
      (if lc.JSONTags.JSONTagRegex = "" then []
        else ((regexpCompile lc.JSONTags.JSONTagRegex).map
          (fun err => (⟨⟨basePath.segments ++ ["jsonTags", "jsonTagRegex"]⟩,
            lc.JSONTags.JSONTagRegex, "invalid regex: " ++ err⟩ : field.Error))).toList) ∧
    (validation.ValidateLintersConfig goCompile ⟨⟨"^[a-z][a-z0-9]*(?:[A-Z][a-z0-9]*"⟩, ⟨"", ""⟩⟩
        (field.NewPath "lintersConfig")).map field.Error.Error =
      ["lintersConfig.jsonTags.jsonTagRegex: Invalid value: \"^[a-z][a-z0-9]*(?:[A-Z][a-z0-9]*\": invalid regex: error parsing regexp: missing closing ): `^[a-z][a-z0-9]*(?:[A-Z][a-z0-9]*`"] := by
  constructor
  · have h1 := path_family_ne basePath "optionalOrRequired" "preferredOptionalMarker"
      "jsonTags" "jsonTagRegex" (Or.inl (by decide))
    have h2 := path_family_ne basePath "optionalOrRequired" "preferredRequiredMarker"
      "jsonTags" "jsonTagRegex" (Or.inl (by decide))
    rw [ValidateLintersConfig_eq, List.filter_append, List.filter_append]
    have e1 : ∀ (v : String) (allowed : List String) (q : field.Path) (e : field.Error),
        e.Field ≠ q →
        (if v ∈ allowed then [] else [e]).filter (fun e => decide (e.Field = q)) = [] := by
      intro v allowed q e he
      by_cases hv : v ∈ allowed
      · rw [if_pos hv]
        rfl
      · rw [if_neg hv, List.filter_cons_of_neg (by simpa using he)]
        rfl
    rw [e1 _ _ _ _ h1, e1 _ _ _ _ h2, List.append_nil, List.append_nil]
    by_cases hv : lc.JSONTags.JSONTagRegex = ""
    · rw [if_pos hv]
      rfl
    · rw [if_neg hv]
      cases regexpCompile lc.JSONTags.JSONTagRegex with
      | none => rfl
      | some err => simp
  · rw [ValidateLintersConfig_eq]
    simp only [hgo]
    rfl

/-- Witness of C11: the example compiler reports the missing parenthesis of the
test's expression. -/
theorem ValidateLintersConfig_jsonTagRegex_witness :
    exampleCompile "^[a-z][a-z0-9]*(?:[A-Z][a-z0-9]*" =
      some "error parsing regexp: missing closing ): `^[a-z][a-z0-9]*(?:[A-Z][a-z0-9]*`" ∧
    (validation.ValidateLintersConfig exampleCompile
        ⟨⟨"^[a-z][a-z0-9]*(?:[A-Z][a-z0-9]*)*$"⟩, ⟨"", ""⟩⟩ (field.NewPath "lintersConfig")).filter
        (fun e => decide (e.Field = ⟨["lintersConfig"] ++ ["jsonTags", "jsonTagRegex"]⟩)) = [] ∧
    (validation.ValidateLintersConfig exampleCompile
        ⟨⟨"^[a-z][a-z0-9]*(?:[A-Z][a-z0-9]*"⟩, ⟨"", ""⟩⟩
        (field.NewPath "lintersConfig")).map field.Error.Error =
      ["lintersConfig.jsonTags.jsonTagRegex: Invalid value: \"^[a-z][a-z0-9]*(?:[A-Z][a-z0-9]*\": invalid regex: error parsing regexp: missing closing ): `^[a-z][a-z0-9]*(?:[A-Z][a-z0-9]*`"] :=
  ⟨rfl,
    (ValidateLintersConfig_jsonTagRegex exampleCompile exampleCompile
      ⟨⟨"^[a-z][a-z0-9]*(?:[A-Z][a-z0-9]*)*$"⟩, ⟨"", ""⟩⟩ (field.NewPath "lintersConfig") rfl).1.trans
      rfl,
    (ValidateLintersConfig_jsonTagRegex exampleCompile exampleCompile
      ⟨⟨"^[a-z][a-z0-9]*(?:[A-Z][a-z0-9]*)*$"⟩, ⟨"", ""⟩⟩ (field.NewPath "lintersConfig") rfl).2⟩

/-- C12: validation is exhaustive. For every config, compiler and base path the
list of `ValidateLintersConfig` is the error of the pattern field if it is
invalid, then the error of the preferred optional marker if it is invalid, then
the error of the preferred required marker if it is invalid, so that the number
of errors is the number of invalid fields; and a config whose pattern does not
compile and whose two markers are outside their allow-lists yields exactly the
three errors, one per field. -/
theorem ValidateLintersConfig_exhaustive (regexpCompile regexpCompile₃ : String → Option String)
    (lc lc₃ : config.LintersConfig) (basePath : field.Path) (err : String)
    (hre : lc₃.JSONTags.JSONTagRegex ≠ "")
    (herr : regexpCompile₃ lc₃.JSONTags.JSONTagRegex = some err)
    (hopt : lc₃.OptionalOrRequired.PreferredOptionalMarker ∉
      ["", "optional", "kubebuilder:validation:Optional"])
    (hreq : lc₃.OptionalOrRequired.PreferredRequiredMarker ∉
      ["", "required", "kubebuilder:validation:Required"]) :
    validation.ValidateLintersConfig regexpCompile lc basePath =
      (if lc.JSONTags.JSONTagRegex = "" then []
        else ((regexpCompile lc.JSONTags.JSONTagRegex).map
          (fun e => (⟨⟨basePath.segments ++ ["jsonTags", "jsonTagRegex"]⟩,
            lc.JSONTags.JSONTagRegex, "invalid regex: " ++ e⟩ : field.Error))).toList) ++
      ((if lc.OptionalOrRequired.PreferredOptionalMarker ∈
          ["", "optional", "kubebuilder:validation:Optional"] then []
        else [(⟨⟨basePath.segments ++ ["optionalOrRequired", "preferredOptionalMarker"]⟩,
          lc.OptionalOrRequired.PreferredOptionalMarker,
          "invalid value, must be one of \"optional\", \"kubebuilder:validation:Optional\" or omitted"⟩ :
            field.Error)]) ++
      (if lc.OptionalOrRequired.PreferredRequiredMarker ∈
          ["", "required", "kubebuilder:validation:Required"] then []
        else [(⟨⟨basePath.segments ++ ["optionalOrRequired", "preferredRequiredMarker"]⟩,
          lc.OptionalOrRequired.PreferredRequiredMarker,
          "invalid value, must be one of \"required\", \"kubebuilder:validation:Required\" or omitted"⟩ :
            field.Error)])) ∧
    (validation.ValidateLintersConfig regexpCompile lc basePath).length =
      (if lc.JSONTags.JSONTagRegex ≠ "" ∧ (regexpCompile lc.JSONTags.JSONTagRegex).isSome = true
        then 1 else 0) +
      (if lc.OptionalOrRequired.PreferredOptionalMarker ∈
        ["", "optional", "kubebuilder:validation:Optional"] then 0 else 1) +
      (if lc.OptionalOrRequired.PreferredRequiredMarker ∈
        ["", "required", "kubebuilder:validation:Required"] then 0 else 1) ∧
    validation.ValidateLintersConfig regexpCompile₃ lc₃ basePath =
      [⟨⟨basePath.segments ++ ["jsonTags", "jsonTagRegex"]⟩,
          lc₃.JSONTags.JSONTagRegex, "invalid regex: " ++ err⟩,
        ⟨⟨basePath.segments ++ ["optionalOrRequired", "preferredOptionalMarker"]⟩,
          lc₃.OptionalOrRequired.PreferredOptionalMarker,
          "invalid value, must be one of \"optional\", \"kubebuilder:validation:Optional\" or omitted"⟩,
        ⟨⟨basePath.segments ++ ["optionalOrRequired", "preferredRequiredMarker"]⟩,
          lc₃.OptionalOrRequired.PreferredRequiredMarker,
          "invalid value, must be one of \"required\", \"kubebuilder:validation:Required\" or omitted"⟩] := by
  refine ⟨ValidateLintersConfig_eq regexpCompile lc basePath, ?_, ?_⟩
  · rw [ValidateLintersConfig_eq, List.length_append, List.length_append, Nat.add_assoc]
    congr 1
    · by_cases hv : lc.JSONTags.JSONTagRegex = ""
      · simp [hv]
      · cases hc : regexpCompile lc.JSONTags.JSONTagRegex with
        | none => simp [hv]
        | some e => simp [hv]
    · congr 1
      · split <;> rfl
      · split <;> rfl
  · rw [ValidateLintersConfig_eq, if_neg hre, herr, if_neg hopt, if_neg hreq]
    rfl

/-- Witness of C12: the test's unbalanced expression and the value `invalid` for
both markers, under the base path `lintersConfig`, give three errors. -/
theorem ValidateLintersConfig_exhaustive_witness :
    (validation.ValidateLintersConfig exampleCompile
        ⟨⟨"^[a-z][a-z0-9]*(?:[A-Z][a-z0-9]*"⟩, ⟨"invalid", "invalid"⟩⟩
        (field.NewPath "lintersConfig")).map field.Error.Error =
      ["lintersConfig.jsonTags.jsonTagRegex: Invalid value: \"^[a-z][a-z0-9]*(?:[A-Z][a-z0-9]*\": invalid regex: error parsing regexp: missing closing ): `^[a-z][a-z0-9]*(?:[A-Z][a-z0-9]*`",
        "lintersConfig.optionalOrRequired.preferredOptionalMarker: Invalid value: \"invalid\": invalid value, must be one of \"optional\", \"kubebuilder:validation:Optional\" or omitted",
        "lintersConfig.optionalOrRequired.preferredRequiredMarker: Invalid value: \"invalid\": invalid value, must be one of \"required\", \"kubebuilder:validation:Required\" or omitted"] :=
  (congrArg (List.map field.Error.Error)
    (ValidateLintersConfig_exhaustive exampleCompile exampleCompile
      config.LintersConfig.zero
      ⟨⟨"^[a-z][a-z0-9]*(?:[A-Z][a-z0-9]*"⟩, ⟨"invalid", "invalid"⟩⟩
      (field.NewPath "lintersConfig")
      "error parsing regexp: missing closing ): `^[a-z][a-z0-9]*(?:[A-Z][a-z0-9]*`"
      (by decide) rfl (by decide) (by decide)).2.2).trans rfl

/-- C13: the empty configuration has no error, for every base path and every
compiler. -/
theorem ValidateLintersConfig_zero (regexpCompile : String → Option String)
    (basePath : field.Path) :
    validation.ValidateLintersConfig regexpCompile config.LintersConfig.zero basePath = [] := by
  rw [ValidateLintersConfig_eq]
  simp [config.LintersConfig.zero]

/-! ## The wildcard and the shape of the request -/

theorem InitializeLinters_append {Analyzer : Type} (a b : List (AnalyzerInitializer Analyzer))
    (cfg : config.Linters) (lintersCfg : config.LintersConfig) :
    (registry.mk (a ++ b)).InitializeLinters cfg lintersCfg =
      (registry.mk a).InitializeLinters cfg lintersCfg ++
        (registry.mk b).InitializeLinters cfg lintersCfg := by
  rw [InitializeLinters_eq_filter, InitializeLinters_eq_filter, InitializeLinters_eq_filter,
    List.filter_append, List.map_append]

theorem InitializeLinters_cons {Analyzer : Type} (i : AnalyzerInitializer Analyzer)
    (t : List (AnalyzerInitializer Analyzer))
    (cfg : config.Linters) (lintersCfg : config.LintersConfig) :
    (registry.mk (i :: t)).InitializeLinters cfg lintersCfg =
      (if selects cfg i.Name i.Default = true then [i.Init lintersCfg] else []) ++
        (registry.mk t).InitializeLinters cfg lintersCfg := by
  rw [InitializeLinters_eq_filter, InitializeLinters_eq_filter]
  by_cases h : selects cfg i.Name i.Default = true
  · simp [h]
  · simp [h]

theorem toFinset_ne_wildcard_of_mem (items : List String) (x : String)
    (hx : x ∈ items) (hne : x ≠ "*") : items.toFinset ≠ {"*"} := by
  intro h
  have : x ∈ items.toFinset := List.mem_toFinset.mpr hx
  rw [h, Finset.mem_singleton] at this
  exact hne this

theorem toFinset_replicate_wildcard (k : Nat) :
    (List.replicate (k + 1) "*").toFinset = {"*"} := by
  ext x
  simp [List.mem_replicate]

/-- C14: the wildcard is recognised only as an exact singleton. The test
`Len() == 1 && Has(Wildcard)` of a set built from a list holds iff the set of
the entries of the list is the wildcard singleton. Hence `Enable` made of the
wildcard repeated `k + 1` times instantiates every initializer not named in
`Disable`; when `Enable` holds the wildcard and another name, a default-off
initializer not named in `Enable` contributes nothing, whatever `Disable` is;
and when `Disable` holds the wildcard and another name, a default-on initializer
not named in `Disable` is instantiated, whatever `Enable` is. -/
theorem wildcard_exact_singleton {Analyzer : Type} (r : registry Analyzer)
    (lintersCfg : config.LintersConfig) (items : List String) (k : Nat)
    (pre post pre' post' : List (AnalyzerInitializer Analyzer))
    (i j : AnalyzerInitializer Analyzer)
    (E D D₀ D₁ E₂ : List String) (x y : String)
    (_hEw : "*" ∈ E) (hEx : x ∈ E) (hx : x ≠ "*") (hi : i.Default = false) (hiE : i.Name ∉ E)
    (_hDw : "*" ∈ D) (hDy : y ∈ D) (hy : y ≠ "*") (hj : j.Default = true) (hjD : j.Name ∉ D) :
    (((sets.New items).Len == 1 && (sets.New items).Has config.Wildcard) = true ↔
      items.toFinset = {"*"}) ∧
    r.InitializeLinters ⟨List.replicate (k + 1) "*", D₀⟩ lintersCfg =
      (r.initializers.filter (fun a => decide (a.Name ∉ D₀))).map (fun a => a.Init lintersCfg) ∧
    (registry.mk (pre ++ i :: post)).InitializeLinters ⟨E, D₁⟩ lintersCfg =
      (registry.mk (pre ++ post)).InitializeLinters ⟨E, D₁⟩ lintersCfg ∧
    (registry.mk (pre' ++ j :: post')).InitializeLinters ⟨E₂, D⟩ lintersCfg =
      (registry.mk pre').InitializeLinters ⟨E₂, D⟩ lintersCfg ++
        j.Init lintersCfg :: (registry.mk post').InitializeLinters ⟨E₂, D⟩ lintersCfg := by
  refine ⟨?_, ?_, ?_, ?_⟩
  · rw [sets.wildcard_test, decide_eq_true_eq]
    rfl
  · rw [InitializeLinters_eq_filter]
    congr 1
    apply List.filter_congr
    intro a _
    rw [Bool.eq_iff_iff, selects_eq_true_iff, decide_eq_true_eq]
    constructor
    · exact fun h => h.1
    · exact fun h => ⟨h, Or.inl (toFinset_replicate_wildcard k)⟩
  · have hsel : ¬ selects ⟨E, D₁⟩ i.Name i.Default = true := by
      rw [selects_eq_true_iff]
      rintro ⟨_, h | h | ⟨_, h⟩⟩
      · exact toFinset_ne_wildcard_of_mem E x hEx hx h
      · exact hiE h
      · rw [hi] at h
        exact Bool.false_ne_true h
    rw [InitializeLinters_append, InitializeLinters_cons, if_neg hsel, List.nil_append,
      ← InitializeLinters_append]
  · have hsel : selects ⟨E₂, D⟩ j.Name j.Default = true := by
      rw [selects_eq_true_iff]
      exact ⟨hjD, Or.inr (Or.inr ⟨toFinset_ne_wildcard_of_mem D y hDy hy, hj⟩)⟩
    rw [InitializeLinters_append, InitializeLinters_cons, if_pos hsel]
    rfl

/-- Witness of C14: in the registry `A` (on), `B` (off), `C` (on), `Enable`
holding the wildcard and `A` leaves `B` out, and `Disable` holding the wildcard
and `A` still lets `C` in. -/
theorem wildcard_exact_singleton_witness :
    (((sets.New ["*", "*"]).Len == 1 && (sets.New ["*", "*"]).Has config.Wildcard) = true ↔
      ["*", "*"].toFinset = {"*"}) ∧
    exampleRegistry.InitializeLinters ⟨List.replicate (1 + 1) "*", ["C"]⟩
        config.LintersConfig.zero =
      (exampleRegistry.initializers.filter (fun a => decide (a.Name ∉ ["C"]))).map
        (fun a => a.Init config.LintersConfig.zero) ∧
    (registry.mk ([rule "A" true] ++ rule "B" false :: [rule "C" true])).InitializeLinters
        ⟨["*", "A"], []⟩ config.LintersConfig.zero =
      (registry.mk ([rule "A" true] ++ [rule "C" true])).InitializeLinters
        ⟨["*", "A"], []⟩ config.LintersConfig.zero ∧
    (registry.mk ([rule "A" true, rule "B" false] ++ rule "C" true :: [])).InitializeLinters
        ⟨[], ["*", "A"]⟩ config.LintersConfig.zero =
      (registry.mk [rule "A" true, rule "B" false]).InitializeLinters
          ⟨[], ["*", "A"]⟩ config.LintersConfig.zero ++
        (rule "C" true).Init config.LintersConfig.zero ::
          (registry.mk []).InitializeLinters ⟨[], ["*", "A"]⟩ config.LintersConfig.zero :=
  wildcard_exact_singleton exampleRegistry config.LintersConfig.zero ["*", "*"] 1
    [rule "A" true] [rule "C" true] [rule "A" true, rule "B" false] []
    (rule "B" false) (rule "C" true) ["*", "A"] ["*", "A"] ["C"] [] [] "A" "A"
    (by decide) (by decide) (by decide) rfl (by decide)
    (by decide) (by decide) (by decide) rfl (by decide)

theorem wildcard_toFinset : (["*"] : List String).toFinset = {"*"} := by
  rfl

theorem nil_toFinset_ne_wildcard : ([] : List String).toFinset ≠ {"*"} := by
  intro h
  exact Finset.singleton_ne_empty _ h.symm

/-- C15: the wildcard enable matches every known name. With `Enable = ["*"]` and
`Disable = []` the result is the product of every registered initializer, in
registration order, so its length is the number of initializers, and the set of
the names of the initializers instantiated, which are all of them, is
`AllLinters()`. -/
theorem InitializeLinters_wildcard_enable {Analyzer : Type} (r : registry Analyzer)
    (lintersCfg : config.LintersConfig) :
    r.InitializeLinters ⟨["*"], []⟩ lintersCfg =
      r.initializers.map (fun i => i.Init lintersCfg) ∧
    (r.InitializeLinters ⟨["*"], []⟩ lintersCfg).length = r.initializers.length ∧
    sets.New (r.initializers.map (fun i => i.Name)) = r.AllLinters := by
  have h : r.InitializeLinters ⟨["*"], []⟩ lintersCfg =
      r.initializers.map (fun i => i.Init lintersCfg) := by
    rw [InitializeLinters_eq_filter]
    congr 1
    apply List.filter_eq_self.mpr
    intro i _
    rw [selects_eq_true_iff]
    exact ⟨List.not_mem_nil _, Or.inl wildcard_toFinset⟩
  refine ⟨h, ?_, (AllLinters_eq_New r).symm⟩
  rw [h, List.length_map]

/-- C16: with an empty request the defaults run. With `Enable = []` and
`Disable = []` the result is, in registration order, the products of the
initializers that are on by default, and the set of their names is
`DefaultLinters()`. -/
theorem InitializeLinters_empty_request {Analyzer : Type} (r : registry Analyzer)
    (lintersCfg : config.LintersConfig) :
    r.InitializeLinters ⟨[], []⟩ lintersCfg =
      (r.initializers.filter (fun i => i.Default)).map (fun i => i.Init lintersCfg) ∧
    sets.New ((r.initializers.filter (fun i => i.Default)).map (fun i => i.Name)) =
      r.DefaultLinters := by
  refine ⟨?_, (DefaultLinters_eq_New r).symm⟩
  have hf : r.initializers.filter (fun i => selects ⟨[], []⟩ i.Name i.Default) =
      r.initializers.filter (fun i => i.Default) := by
    apply List.filter_congr
    intro i _
    rw [Bool.eq_iff_iff, selects_eq_true_iff]
    constructor
    · rintro ⟨_, h | h | ⟨_, h⟩⟩
      · exact absurd h nil_toFinset_ne_wildcard
      · exact absurd h (List.not_mem_nil _)
      · exact h
    · intro h
      exact ⟨List.not_mem_nil _, Or.inr (Or.inr ⟨nil_toFinset_ne_wildcard, h⟩)⟩
  rw [InitializeLinters_eq_filter, hf]

/-- C17: the wildcard enable beats the wildcard disable. When no initializer is
named `*`, `Enable = ["*"]` with `Disable = ["*"]` gives the product of every
registered initializer, the result of `Enable = ["*"]` with `Disable = []`, of
the length of the registry. -/
theorem InitializeLinters_wildcard_both {Analyzer : Type} (r : registry Analyzer)
    (lintersCfg : config.LintersConfig)
    (hwild : ∀ i ∈ r.initializers, i.Name ≠ "*") :
    r.InitializeLinters ⟨["*"], ["*"]⟩ lintersCfg =
      r.initializers.map (fun i => i.Init lintersCfg) ∧
    r.InitializeLinters ⟨["*"], ["*"]⟩ lintersCfg =
      r.InitializeLinters ⟨["*"], []⟩ lintersCfg ∧
    (r.InitializeLinters ⟨["*"], ["*"]⟩ lintersCfg).length = r.initializers.length := by
  have hall : ∀ D : List String, (∀ i ∈ r.initializers, i.Name ∉ D) →
      r.InitializeLinters ⟨["*"], D⟩ lintersCfg =
        r.initializers.map (fun i => i.Init lintersCfg) := by
    intro D hD
    rw [InitializeLinters_eq_filter]
    congr 1
    apply List.filter_eq_self.mpr
    intro i hi
    rw [selects_eq_true_iff]
    exact ⟨hD i hi, Or.inl wildcard_toFinset⟩
  have h1 := hall ["*"] (fun i hi h => hwild i hi (List.mem_singleton.mp h))
  have h2 := hall [] (fun i _ => List.not_mem_nil _)
  refine ⟨h1, h1.trans h2.symm, ?_⟩
  rw [h1, List.length_map]

/-- Witness of C17: the registry `A` (on), `B` (off), `C` (on) with both lists
the wildcard instantiates the three rules. -/
theorem InitializeLinters_wildcard_both_witness :
    exampleRegistry.InitializeLinters ⟨["*"], ["*"]⟩ config.LintersConfig.zero =
      ["A", "B", "C"] :=
  (InitializeLinters_wildcard_both exampleRegistry config.LintersConfig.zero
    (by decide)).1.trans rfl

/-- C18: the request is read as two sets. Lists with the same set of entries,
in any order and with any repetition, give the same result. -/
theorem InitializeLinters_request_as_sets {Analyzer : Type} (r : registry Analyzer)
    (lintersCfg : config.LintersConfig) (Enable Enable' Disable Disable' : List String)
    (hE : Enable'.toFinset = Enable.toFinset) (hD : Disable'.toFinset = Disable.toFinset) :
    r.InitializeLinters ⟨Enable', Disable'⟩ lintersCfg =
      r.InitializeLinters ⟨Enable, Disable⟩ lintersCfg := by
  have hmem : ∀ (l l' : List String), l'.toFinset = l.toFinset → ∀ n : String,
      (n ∈ l' ↔ n ∈ l) := by
    intro l l' h n
    rw [← List.mem_toFinset, h, List.mem_toFinset]
  rw [InitializeLinters_eq_filter, InitializeLinters_eq_filter]
  congr 1
  apply List.filter_congr
  intro i _
  rw [Bool.eq_iff_iff, selects_eq_true_iff, selects_eq_true_iff]
  simp only [hE, hD, hmem Enable Enable' hE, hmem Disable Disable' hD]

/-- Witness of C18: in the registry `A` (on), `B` (off), `C` (on), the request
`Enable = ["B", "B"]`, `Disable = ["C", "A", "C"]` gives the result of
`Enable = ["B"]`, `Disable = ["A", "C"]`. -/
theorem InitializeLinters_request_as_sets_witness :
    exampleRegistry.InitializeLinters ⟨["B", "B"], ["C", "A", "C"]⟩ config.LintersConfig.zero =
      exampleRegistry.InitializeLinters ⟨["B"], ["A", "C"]⟩ config.LintersConfig.zero ∧
    exampleRegistry.InitializeLinters ⟨["B"], ["A", "C"]⟩ config.LintersConfig.zero = ["B"] :=
  ⟨InitializeLinters_request_as_sets exampleRegistry config.LintersConfig.zero
    ["B"] ["B", "B"] ["A", "C"] ["C", "A", "C"] (by decide) (by decide), by decide⟩

/-- C19: the selection does not depend on the linters configuration. For every
registry and request there is one sublist of the initializers, chosen without
the config, such that under every config the result is `Init` of that config
applied to each of them in order; so the results under two configs have the
same length and come, position by position, from the same initializer. -/
theorem InitializeLinters_selection_config_independent {Analyzer : Type}
    (r : registry Analyzer) (cfg : config.Linters) :
    (∃ kept : List (AnalyzerInitializer Analyzer), kept.Sublist r.initializers ∧
      ∀ lintersCfg : config.LintersConfig,
        r.InitializeLinters cfg lintersCfg = kept.map (fun i => i.Init lintersCfg)) ∧
    ∀ c₁ c₂ : config.LintersConfig,
      (r.InitializeLinters cfg c₁).length = (r.InitializeLinters cfg c₂).length := by
  constructor
  · exact ⟨r.initializers.filter (fun i => selects cfg i.Name i.Default),
      List.filter_sublist _, fun lintersCfg => InitializeLinters_eq_filter r cfg lintersCfg⟩
  · intro c₁ c₂
    rw [InitializeLinters_eq_filter, InitializeLinters_eq_filter, List.length_map,
      List.length_map]

end Kal
